import Mathlib

/-!
Verification development for a minimal license/credit management backend
(`merged_app.py`).  The store (four SQLite tables) is embedded as a record of
lists; datetimes are modelled as integer seconds (the source stores and parses
timestamps at second granularity via `"%Y-%m-%d %H:%M:%S"`, and
`timedelta(days=30)` is `30 * 86400` seconds); monetary amounts are modelled as
rationals, with Python's `int(...)` conversion embedded as truncation toward
zero; SQLite `AUTOINCREMENT` row ids are modelled by explicit counters; and
`uuid.uuid4()` license codes are modelled as a deterministic fresh-token
generator (their only relevant property is that each created license carries
some code).

The two ledger operations, `process_order` (lines 84-137 of the source) and
`transcribe` (lines 150-197), are embedded as pure state transformers.  Each
is split at the source's own synchronization boundaries: `process_order` at
its two `conn.commit()` calls (lines 98 and 136), and `transcribe` at the
`credit_lock` acquisition (line 169), so that durability of intermediate
states and interleavings of concurrent redemptions can be stated faithfully.
-/

/-- Seconds in a day; `timedelta(days=30)` is `30 * day` seconds. -/
def day : Int := 86400

/-- Python `int(q)` on a real value: truncation toward zero. -/
def pyInt (q : ℚ) : ℤ := q.num.tdiv q.den

/-- Row of the `users` table (columns used by the core: `id`, `email`). -/
structure User where
  id : Nat
  email : String
deriving DecidableEq

/-- Row of the `licenses` table.  `usage_time` and `usage_count` have SQL
`DEFAULT 0`; `remaining_usage` is nullable, hence `Option Int`. -/
structure License where
  id : Nat
  user_id : Nat
  license_code : String
  valid_from : Int
  valid_until : Int
  usage_time : Int
  usage_count : Int
  remaining_usage : Option Int
deriving DecidableEq

/-- Row of the `usage_logs` table. -/
structure UsageLog where
  license_id : Nat
  session_start : Int
  session_end : Int
  duration : Int
deriving DecidableEq

/-- Row of the `orders` table (columns written by `process_order`). -/
structure OrderRow where
  user_id : Nat
  license_id : Nat
  order_code : String
  amount : ℚ
  payment_status : String
deriving DecidableEq

/-- The relational store: the four tables plus the `AUTOINCREMENT` counters
for the two tables whose fresh row ids the code reads back (`lastrowid`). -/
structure Store where
  users : List User
  licenses : List License
  usage_logs : List UsageLog
  orders : List OrderRow
  next_user_id : Nat
  next_license_id : Nat
deriving DecidableEq

/-- The freshly initialised store (`init_db` creates empty tables). -/
def emptyStore : Store :=
  { users := [], licenses := [], usage_logs := [], orders := [],
    next_user_id := 0, next_license_id := 0 }

/-- Models `generate_license_code` (source line 80): `uuid.uuid4()` is
embedded as a deterministic fresh token derived from the row counter. -/
def generate_license_code (n : Nat) : String :=
  "uuid-" ++ toString n

/-- First durable unit of `process_order` (source lines 92-101): resolve the
user by email, inserting a new row when absent.  This phase ends at the
`conn.commit()` on line 98, so its output state is durable on its own.
Returns the state together with the resolved user id. -/
def resolve_user (s : Store) (email : String) : Store × Nat :=
  match s.users.find? (fun u => u.email = email) with
  | some u => (s, u.id)
  | none =>
      ({ s with
          users := s.users ++ [{ id := s.next_user_id, email := email }],
          next_user_id := s.next_user_id + 1 },
       s.next_user_id)

/-- License creation or extension inside `process_order` (source lines
103-130): look up the user's license; if none exists insert a fresh one with
30-day validity and `int(amount * 60)` credit, otherwise extend the existing
row from base `max(now, valid_until)` by 30 days and add `int(amount * 60)`
to the NULL-defaulted balance.  Returns the state together with the license
id later referenced by the order row. -/
def license_upsert (s : Store) (user_id : Nat) (amount : ℚ) (now : Int) :
    Store × Nat :=
  match s.licenses.find? (fun l => l.user_id = user_id) with
  | none =>
      ({ s with
          licenses := s.licenses ++
            [{ id := s.next_license_id, user_id := user_id,
               license_code := generate_license_code s.next_license_id,
               valid_from := now, valid_until := now + 30 * day,
               usage_time := 0, usage_count := 0,
               remaining_usage := some (pyInt (amount * 60)) }],
          next_license_id := s.next_license_id + 1 },
       s.next_license_id)
  | some lic =>
      let base := if lic.valid_until < now then now else lic.valid_until
      let new_valid_until := base + 30 * day
      let remaining := lic.remaining_usage.getD 0 + pyInt (amount * 60)
      ({ s with
          licenses := s.licenses.map (fun l =>
            if l.id = lic.id then
              { l with valid_until := new_valid_until,
                       remaining_usage := some remaining }
            else l) },
       lic.id)

/-- The `INSERT OR IGNORE` of the order row (source lines 132-135): skipped
when a row with this `order_code` already exists (UNIQUE constraint). -/
def insert_order_ignore (s : Store) (user_id license_id : Nat)
    (order_code : String) (amount : ℚ) : Store :=
  if s.orders.any (fun o => o.order_code = order_code) then s
  else
    { s with
        orders := s.orders ++
          [{ user_id := user_id, license_id := license_id,
             order_code := order_code, amount := amount,
             payment_status := "completed" }] }

/-- Second durable unit of `process_order` (source lines 103-136): the
license upsert followed by the order `INSERT OR IGNORE`, all committed by the
single `conn.commit()` on line 136. -/
def apply_license_and_order (s : Store) (user_id : Nat) (order_code : String)
    (amount : ℚ) (now : Int) : Store :=
  let step := license_upsert s user_id amount now
  insert_order_ignore step.1 user_id step.2 order_code amount

/-- `process_order` (source lines 84-137): the two durable units in
sequence. -/
def process_order (s : Store) (email order_code : String) (amount : ℚ)
    (now : Int) : Store :=
  let p := resolve_user s email
  apply_license_and_order p.1 p.2 order_code amount now

/-- The three client-visible rejections of `transcribe`. -/
inductive TError where
  | InvalidLicense
  | LicenseExpired
  | InsufficientCredit
deriving DecidableEq

/-- Success payload of `transcribe` (source lines 192-197). -/
structure TOk where
  file_size : Nat
  deducted_seconds : Int
  remaining_credit : Int
deriving DecidableEq

/-- Outcome of a `transcribe` call. -/
inductive TResult where
  | err : TError → TResult
  | ok : TOk → TResult
deriving DecidableEq

/-- Fixed per-redemption cost (source line 166: `file_duration = 60`). -/
def file_duration : Int := 60

/-- Pre-lock phase of `transcribe` (source lines 151-163): fetch the license
row by code and check expiry against `now`.  This read happens BEFORE the
`credit_lock` is acquired; the returned row is the snapshot later used inside
the locked section. -/
def transcribe_fetch (s : Store) (license_key : String) (now : Int) :
    Except TError License :=
  match s.licenses.find? (fun l => l.license_code = license_key) with
  | none => .error .InvalidLicense
  | some lic =>
      if now > lic.valid_until then .error .LicenseExpired
      else .ok lic

/-- Locked phase of `transcribe` (source lines 169-187, under `credit_lock`):
the sufficiency check reads `remaining_usage` from the snapshot row `lic`
fetched before the lock (NULL defaulted to 0), then the deduction, counters
update and usage-log insertion are applied to the current store and committed
together. -/
def transcribe_locked (s : Store) (lic : License) (file : List Nat)
    (now : Int) : Store × TResult :=
  let remaining_usage := lic.remaining_usage.getD 0
  if remaining_usage < file_duration then (s, .err .InsufficientCredit)
  else
    let new_remaining := remaining_usage - file_duration
    ({ s with
        licenses := s.licenses.map (fun l =>
          if l.id = lic.id then
            { l with remaining_usage := some new_remaining,
                     usage_count := l.usage_count + 1,
                     usage_time := l.usage_time + file_duration }
          else l),
        usage_logs := s.usage_logs ++
          [{ license_id := lic.id, session_start := now,
             session_end := now + file_duration,
             duration := file_duration }] },
     .ok { file_size := file.length, deducted_seconds := file_duration,
           remaining_credit := new_remaining })

/-- `transcribe` (source lines 150-197) as executed by a single request with
no interleaving: fetch phase followed immediately by the locked phase.  On a
rejection the store is returned unchanged. -/
def transcribe (s : Store) (license_key : String) (file : List Nat)
    (now : Int) : Store × TResult :=
  match transcribe_fetch s license_key now with
  | .error e => (s, .err e)
  | .ok lic => transcribe_locked s lic file now

/-- Balance invariant: every non-NULL `remaining_usage` stored in a license
row is non-negative. -/
def LicInv (s : Store) : Prop :=
  ∀ l ∈ s.licenses, ∀ v, l.remaining_usage = some v → 0 ≤ v

/-- Store states reachable from the fresh store through the two API
operations, where every applied order carries a non-negative amount (the
domain the spec prescribes for `amount`; the code itself performs no such
check). -/
inductive ReachNonnegOrders : Store → Prop where
  | init : ReachNonnegOrders emptyStore
  | order (s : Store) (email order_code : String) (amount : ℚ) (now : Int) :
      ReachNonnegOrders s → 0 ≤ amount →
      ReachNonnegOrders (process_order s email order_code amount now)
  | redeem (s : Store) (key : String) (f : List Nat) (now : Int) :
      ReachNonnegOrders s → ReachNonnegOrders (transcribe s key f now).1

/-- A license holding exactly one redemption's worth of credit, used to
exhibit the stale-read interleaving of two concurrent `transcribe` calls. -/
def raceLicense : License :=
  { id := 0, user_id := 0, license_code := "L-RACE", valid_from := 0,
    valid_until := 2592000, usage_time := 0, usage_count := 0,
    remaining_usage := some 60 }

/-- Store holding `raceLicense`. -/
def raceStore : Store :=
  { users := [{ id := 0, email := "race@example.com" }],
    licenses := [raceLicense], usage_logs := [], orders := [],
    next_user_id := 1, next_license_id := 1 }

/-- A valid, unexpired license with 100 seconds of credit, used as a concrete
instantiation for witness theorems. -/
def wLicense : License :=
  { id := 0, user_id := 0, license_code := "KEY-1", valid_from := 0,
    valid_until := 2592000, usage_time := 7, usage_count := 3,
    remaining_usage := some 100 }

/-- Store holding `wLicense` and its owner. -/
def wStore : Store :=
  { users := [{ id := 0, email := "w@example.com" }],
    licenses := [wLicense], usage_logs := [], orders := [],
    next_user_id := 1, next_license_id := 1 }

/-- A valid, unexpired license whose `remaining_usage` column is NULL. -/
def nullLicense : License :=
  { id := 0, user_id := 0, license_code := "KEY-N", valid_from := 0,
    valid_until := 2592000, usage_time := 0, usage_count := 0,
    remaining_usage := none }

/-- Store holding `nullLicense` and its owner. -/
def nullStore : Store :=
  { users := [{ id := 0, email := "n@example.com" }],
    licenses := [nullLicense], usage_logs := [], orders := [],
    next_user_id := 1, next_license_id := 1 }

/-! ### Basic lemmas about the embedding -/

theorem pyInt_eq_floor (q : ℚ) (h : 0 ≤ q) : pyInt q = ⌊q⌋ := by
  rw [Rat.floor_def, pyInt,
    Int.tdiv_eq_ediv (Rat.num_nonneg.mpr h) (Int.ofNat_nonneg q.den)]

theorem pyInt_nonneg (q : ℚ) (h : 0 ≤ q) : 0 ≤ pyInt q := by
  rw [pyInt_eq_floor q h]
  exact Int.le_floor.mpr (by exact_mod_cast h)

theorem resolve_user_licenses (s : Store) (e : String) :
    (resolve_user s e).1.licenses = s.licenses := by
  unfold resolve_user; split <;> rfl

theorem resolve_user_orders (s : Store) (e : String) :
    (resolve_user s e).1.orders = s.orders := by
  unfold resolve_user; split <;> rfl

theorem resolve_user_usage_logs (s : Store) (e : String) :
    (resolve_user s e).1.usage_logs = s.usage_logs := by
  unfold resolve_user; split <;> rfl

theorem resolve_user_next_license_id (s : Store) (e : String) :
    (resolve_user s e).1.next_license_id = s.next_license_id := by
  unfold resolve_user; split <;> rfl

theorem insert_order_ignore_users (s : Store) (uid lid : Nat) (oc : String)
    (a : ℚ) : (insert_order_ignore s uid lid oc a).users = s.users := by
  unfold insert_order_ignore; split <;> rfl

theorem insert_order_ignore_licenses (s : Store) (uid lid : Nat) (oc : String)
    (a : ℚ) : (insert_order_ignore s uid lid oc a).licenses = s.licenses := by
  unfold insert_order_ignore; split <;> rfl

theorem insert_order_ignore_usage_logs (s : Store) (uid lid : Nat) (oc : String)
    (a : ℚ) : (insert_order_ignore s uid lid oc a).usage_logs = s.usage_logs := by
  unfold insert_order_ignore; split <;> rfl

theorem license_upsert_users (s : Store) (uid : Nat) (a : ℚ) (t : Int) :
    (license_upsert s uid a t).1.users = s.users := by
  unfold license_upsert; split <;> rfl

theorem license_upsert_usage_logs (s : Store) (uid : Nat) (a : ℚ) (t : Int) :
    (license_upsert s uid a t).1.usage_logs = s.usage_logs := by
  unfold license_upsert; split <;> rfl

theorem license_upsert_orders (s : Store) (uid : Nat) (a : ℚ) (t : Int) :
    (license_upsert s uid a t).1.orders = s.orders := by
  unfold license_upsert; split <;> rfl

theorem apply_license_and_order_users (s : Store) (uid : Nat) (oc : String)
    (a : ℚ) (t : Int) : (apply_license_and_order s uid oc a t).users = s.users := by
  unfold apply_license_and_order
  rw [insert_order_ignore_users, license_upsert_users]

theorem apply_license_and_order_usage_logs (s : Store) (uid : Nat) (oc : String)
    (a : ℚ) (t : Int) :
    (apply_license_and_order s uid oc a t).usage_logs = s.usage_logs := by
  unfold apply_license_and_order
  rw [insert_order_ignore_usage_logs, license_upsert_usage_logs]

theorem resolve_user_found (s : Store) (e : String) (u : User)
    (h : s.users.find? (fun x => x.email = e) = some u) :
    resolve_user s e = (s, u.id) := by
  unfold resolve_user; rw [h]

theorem resolve_user_new (s : Store) (e : String)
    (h : s.users.find? (fun x => x.email = e) = none) :
    resolve_user s e =
      ({ s with users := s.users ++ [{ id := s.next_user_id, email := e }],
                next_user_id := s.next_user_id + 1 },
       s.next_user_id) := by
  unfold resolve_user; rw [h]

theorem license_upsert_none (s : Store) (uid : Nat) (a : ℚ) (t : Int)
    (h : s.licenses.find? (fun l => l.user_id = uid) = none) :
    license_upsert s uid a t =
      ({ s with
          licenses := s.licenses ++
            [{ id := s.next_license_id, user_id := uid,
               license_code := generate_license_code s.next_license_id,
               valid_from := t, valid_until := t + 30 * day,
               usage_time := 0, usage_count := 0,
               remaining_usage := some (pyInt (a * 60)) }],
          next_license_id := s.next_license_id + 1 },
       s.next_license_id) := by
  unfold license_upsert; rw [h]

theorem license_upsert_some (s : Store) (uid : Nat) (a : ℚ) (t : Int)
    (lic : License)
    (h : s.licenses.find? (fun l => l.user_id = uid) = some lic) :
    license_upsert s uid a t =
      ({ s with
          licenses := s.licenses.map (fun l =>
            if l.id = lic.id then
              { l with
                  valid_until :=
                    (if lic.valid_until < t then t else lic.valid_until) +
                      30 * day,
                  remaining_usage :=
                    some (lic.remaining_usage.getD 0 + pyInt (a * 60)) }
            else l) },
       lic.id) := by
  unfold license_upsert; rw [h]

theorem transcribe_fetch_ok (s : Store) (key : String) (t : Int)
    (lic : License) (h : transcribe_fetch s key t = .ok lic) :
    s.licenses.find? (fun l => l.license_code = key) = some lic ∧
      ¬ t > lic.valid_until := by
  unfold transcribe_fetch at h
  rcases hf : s.licenses.find? (fun l => l.license_code = key) with _ | l
  · rw [hf] at h; exact absurd h (by simp)
  · rw [hf] at h
    dsimp only at h
    by_cases hc : t > l.valid_until
    · rw [if_pos hc] at h; exact absurd h (by simp)
    · rw [if_neg hc] at h
      obtain rfl : l = lic := by simpa using h
      exact ⟨hf, hc⟩

theorem licInv_insert_order (s : Store) (uid lid : Nat) (oc : String) (a : ℚ)
    (h : LicInv s) : LicInv (insert_order_ignore s uid lid oc a) := by
  intro l hl
  rw [insert_order_ignore_licenses] at hl
  exact h l hl

theorem licInv_license_upsert (s : Store) (uid : Nat) (a : ℚ) (t : Int)
    (ha : 0 ≤ a) (h : LicInv s) : LicInv (license_upsert s uid a t).1 := by
  have hpy : 0 ≤ pyInt (a * 60) := pyInt_nonneg _ (mul_nonneg ha (by norm_num))
  rcases hf : s.licenses.find? (fun l => l.user_id = uid) with _ | lic
  · rw [license_upsert_none s uid a t hf]
    intro l hl v hv
    rcases List.mem_append.mp hl with hmem | hmem
    · exact h l hmem v hv
    · obtain rfl := List.mem_singleton.mp hmem
      obtain rfl : pyInt (a * 60) = v := by simpa using hv
      exact hpy
  · rw [license_upsert_some s uid a t lic hf]
    intro l hl v hv
    obtain ⟨x, hx, rfl⟩ := List.mem_map.mp hl
    have hlic : 0 ≤ lic.remaining_usage.getD 0 := by
      rcases hr : lic.remaining_usage with _ | w
      · simp
      · simpa using h lic (List.mem_of_find?_eq_some hf) w hr
    by_cases hid : x.id = lic.id
    · rw [if_pos hid] at hv
      obtain rfl : lic.remaining_usage.getD 0 + pyInt (a * 60) = v := by
        simpa using hv
      exact add_nonneg hlic hpy
    · rw [if_neg hid] at hv
      exact h x hx v hv

theorem licInv_process_order (s : Store) (e oc : String) (a : ℚ) (t : Int)
    (ha : 0 ≤ a) (h : LicInv s) : LicInv (process_order s e oc a t) := by
  unfold process_order apply_license_and_order
  apply licInv_insert_order
  apply licInv_license_upsert _ _ _ _ ha
  intro l hl
  rw [resolve_user_licenses] at hl
  exact h l hl

theorem licInv_transcribe (s : Store) (key : String) (f : List Nat) (t : Int)
    (h : LicInv s) : LicInv (transcribe s key f t).1 := by
  unfold transcribe
  rcases hf : transcribe_fetch s key t with e | lic <;> dsimp only
  · exact h
  · unfold transcribe_locked
    dsimp only
    split
    · exact h
    · rename_i hcred
      intro l hl v hv
      obtain ⟨x, hx, rfl⟩ := List.mem_map.mp hl
      by_cases hid : x.id = lic.id
      · rw [if_pos hid] at hv
        obtain rfl : lic.remaining_usage.getD 0 - file_duration = v := by
          simpa using hv
        simp only [file_duration] at hcred ⊢
        omega
      · rw [if_neg hid] at hv
        exact h x hx v hv

theorem transcribe_invalid (s : Store) (key : String) (f : List Nat)
    (now : Int)
    (hf : s.licenses.find? (fun l => l.license_code = key) = none) :
    transcribe s key f now = (s, .err .InvalidLicense) := by
  unfold transcribe transcribe_fetch
  rw [hf]

theorem transcribe_expired (s : Store) (key : String) (f : List Nat)
    (now : Int) (lic : License)
    (hf : s.licenses.find? (fun l => l.license_code = key) = some lic)
    (hexp : now > lic.valid_until) :
    transcribe s key f now = (s, .err .LicenseExpired) := by
  unfold transcribe transcribe_fetch
  rw [hf]
  dsimp only
  rw [if_pos hexp]

theorem transcribe_insufficient (s : Store) (key : String) (f : List Nat)
    (now : Int) (lic : License)
    (hf : s.licenses.find? (fun l => l.license_code = key) = some lic)
    (hexp : ¬ now > lic.valid_until)
    (hcred : lic.remaining_usage.getD 0 < file_duration) :
    transcribe s key f now = (s, .err .InsufficientCredit) := by
  unfold transcribe transcribe_fetch transcribe_locked
  rw [hf]
  dsimp only
  rw [if_neg hexp]
  dsimp only
  rw [if_pos hcred]

theorem transcribe_success (s : Store) (key : String) (f : List Nat)
    (now : Int) (lic : License)
    (hf : s.licenses.find? (fun l => l.license_code = key) = some lic)
    (hexp : ¬ now > lic.valid_until)
    (hcred : ¬ lic.remaining_usage.getD 0 < file_duration) :
    transcribe s key f now =
      ({ s with
          licenses := s.licenses.map (fun l =>
            if l.id = lic.id then
              { l with
                  remaining_usage :=
                    some (lic.remaining_usage.getD 0 - file_duration),
                  usage_count := l.usage_count + 1,
                  usage_time := l.usage_time + file_duration }
            else l),
          usage_logs := s.usage_logs ++
            [{ license_id := lic.id, session_start := now,
               session_end := now + file_duration,
               duration := file_duration }] },
       .ok { file_size := f.length, deducted_seconds := file_duration,
             remaining_credit := lic.remaining_usage.getD 0 - file_duration }) := by
  unfold transcribe transcribe_fetch transcribe_locked
  rw [hf]
  dsimp only
  rw [if_neg hexp]
  dsimp only
  rw [if_neg hcred]

/-! ### Claim theorems -/

/-- C1: order application is NOT idempotent in the order code.  Replaying the
very same `(email, order_code, amount)` at the same time leaves a different
observable license state: the first call yields `valid_until = 2592000` and
`remaining_usage = 60`, the replay extends `valid_until` to `5184000` and the
balance to `120`, even though the order ledger still holds the single row for
`"ORD-1"` (only the `INSERT OR IGNORE` of the order row is deduplicated; the
license extension on lines 116-130 runs unconditionally). -/
theorem order_replay_not_noop :
    (process_order emptyStore "a@example.com" "ORD-1" 1 0).licenses.map
        (fun l => (l.valid_until, l.remaining_usage, l.usage_time,
          l.usage_count)) = [(2592000, some 60, 0, 0)] ∧
    (process_order (process_order emptyStore "a@example.com" "ORD-1" 1 0)
          "a@example.com" "ORD-1" 1 0).licenses.map
        (fun l => (l.valid_until, l.remaining_usage, l.usage_time,
          l.usage_count)) = [(5184000, some 120, 0, 0)] ∧
    (process_order (process_order emptyStore "a@example.com" "ORD-1" 1 0)
          "a@example.com" "ORD-1" 1 0).orders.map OrderRow.order_code =
      ["ORD-1"] := by
  refine ⟨?_, ?_, ?_⟩ <;>
    norm_num [process_order, resolve_user, apply_license_and_order,
      license_upsert, insert_order_ignore, emptyStore, pyInt, day,
      generate_license_code]

/-- C2 counterexample: `process_order` is not all-or-nothing.  On the empty
store the first durable unit (`resolve_user`, ending at the `conn.commit()`
of source line 98) already differs from the initial state (the user row is
visible) yet also differs from the final state of the full call (no license
and no order row is visible), so a failure between the two commits leaves
exactly the intermediate state the claim rules out. -/
theorem order_commit_intermediate_state :
    (resolve_user emptyStore "a@example.com").1.users ≠ emptyStore.users ∧
    (resolve_user emptyStore "a@example.com").1.licenses =
      emptyStore.licenses ∧
    (resolve_user emptyStore "a@example.com").1.orders = emptyStore.orders ∧
    (resolve_user emptyStore "a@example.com").1.usage_logs =
      emptyStore.usage_logs ∧
    (resolve_user emptyStore "a@example.com").1 ≠
      process_order emptyStore "a@example.com" "ORD-1" 1 0 := by
  refine ⟨by decide, by decide, by decide, by decide, ?_⟩
  intro hcontra
  have h2 := congrArg (fun st => st.licenses.length) hcontra
  norm_num [process_order, resolve_user, apply_license_and_order,
    license_upsert, insert_order_ignore, emptyStore] at h2

/-- C2 (amended): the two durable units of `process_order`.  User resolution
(first commit, source line 98) changes nothing but the users table, and the
remainder of the call (license creation/extension plus order insertion,
committed together at source line 136) adds no further user; so license and
order effects are atomic with each other, while user creation is durable on
its own before them. -/
theorem order_two_commit_units (s : Store) (email order_code : String)
    (amount : ℚ) (now : Int) :
    (resolve_user s email).1.licenses = s.licenses ∧
    (resolve_user s email).1.orders = s.orders ∧
    (resolve_user s email).1.usage_logs = s.usage_logs ∧
    (process_order s email order_code amount now).users =
      (resolve_user s email).1.users :=
  ⟨resolve_user_licenses s email, resolve_user_orders s email,
   resolve_user_usage_logs s email, by
     unfold process_order
     rw [apply_license_and_order_users]⟩

/-- C3 counterexample: `process_order` performs no validation of `amount`; a
single accepted order with amount `-1` creates a license whose balance is
`-60`, a reachable state violating `remaining_usage >= 0`. -/
theorem negative_amount_negative_balance :
    (process_order emptyStore "neg@example.com" "ORD-NEG" (-1) 0).licenses.map
      License.remaining_usage = [some (-60)] := by
  norm_num [process_order, resolve_user, apply_license_and_order,
    license_upsert, insert_order_ignore, emptyStore, pyInt, day,
    generate_license_code]

/-- C3 (amended): in every store state reachable from the fresh store through
orders whose amounts are non-negative (the domain the spec prescribes; the
code itself never rejects an amount) and arbitrary redemptions, every stored
`remaining_usage` is non-negative — `transcribe` refuses redemption when the
balance is below the cost, and non-negative orders only add credit. -/
theorem remaining_usage_nonneg_of_reach (s : Store)
    (h : ReachNonnegOrders s) : LicInv s := by
  induction h with
  | init => intro l hl v hv; simp [emptyStore] at hl
  | order s e oc a t hr ha ih => exact licInv_process_order s e oc a t ha ih
  | redeem s k f t hr ih => exact licInv_transcribe s k f t ih

/-- C3 witness: the amended theorem applied to the concrete reachable state
after one order of amount 1. -/
theorem remaining_usage_nonneg_witness :
    (0 : ℚ) ≤ 1 ∧ LicInv (process_order emptyStore "w3@example.com" "ORD-3" 1 0) :=
  ⟨by norm_num,
   remaining_usage_nonneg_of_reach _
     (ReachNonnegOrders.order emptyStore "w3@example.com" "ORD-3" 1 0
       ReachNonnegOrders.init (by norm_num))⟩

/-- C4: the sufficiency check does NOT use a balance re-read inside the
exclusive section; it uses the row snapshot fetched before `credit_lock` is
acquired (source line 154 precedes line 169).  In the interleaving where two
concurrent `transcribe` calls both complete their pre-lock fetch (legal, the
fetch is outside the lock) and then run their locked sections serially, a
license holding credit for exactly one redemption (60) lets BOTH calls
succeed: two `ok` responses, two usage-log rows, `usage_count = 2`, and 120
seconds of service deducted from 60 seconds of credit. -/
theorem stale_read_double_redeem :
    transcribe_fetch raceStore "L-RACE" 0 = .ok raceLicense ∧
    (transcribe_locked raceStore raceLicense [] 0).2 =
      .ok { file_size := 0, deducted_seconds := 60, remaining_credit := 0 } ∧
    (transcribe_locked (transcribe_locked raceStore raceLicense [] 0).1
        raceLicense [] 0).2 =
      .ok { file_size := 0, deducted_seconds := 60, remaining_credit := 0 } ∧
    (transcribe_locked (transcribe_locked raceStore raceLicense [] 0).1
        raceLicense [] 0).1.licenses.map License.remaining_usage =
      [some 0] ∧
    (transcribe_locked (transcribe_locked raceStore raceLicense [] 0).1
        raceLicense [] 0).1.usage_logs.length = 2 ∧
    (transcribe_locked (transcribe_locked raceStore raceLicense [] 0).1
        raceLicense [] 0).1.licenses.map License.usage_count = [2] :=
  ⟨rfl, rfl, rfl, rfl, rfl, rfl⟩

/-- C5: `transcribe` fails with `InvalidLicense` exactly when no stored
license carries the given code; with `LicenseExpired` exactly when the looked
up license satisfies `now > valid_until`; with `InsufficientCredit` exactly
when it is found, unexpired, and its NULL-defaulted balance is below the
cost; and every rejection leaves the store unchanged. -/
theorem transcribe_error_characterization (s : Store) (key : String)
    (f : List Nat) (now : Int) :
    ((transcribe s key f now).2 = .err .InvalidLicense ↔
      ∀ l ∈ s.licenses, l.license_code ≠ key) ∧
    ((transcribe s key f now).2 = .err .LicenseExpired ↔
      ∃ lic, s.licenses.find? (fun l => l.license_code = key) = some lic ∧
        now > lic.valid_until) ∧
    ((transcribe s key f now).2 = .err .InsufficientCredit ↔
      ∃ lic, s.licenses.find? (fun l => l.license_code = key) = some lic ∧
        ¬ now > lic.valid_until ∧
        lic.remaining_usage.getD 0 < file_duration) ∧
    (∀ e, (transcribe s key f now).2 = .err e →
      (transcribe s key f now).1 = s) := by
  rcases hf : s.licenses.find? (fun l => l.license_code = key) with _ | lic
  · rw [transcribe_invalid s key f now hf]
    have hall : ∀ l ∈ s.licenses, l.license_code ≠ key := by
      intro l hl
      simpa using List.find?_eq_none.mp hf l hl
    exact ⟨iff_of_true rfl hall, by simp [hf], by simp [hf], fun e h => rfl⟩
  · have hmem := List.mem_of_find?_eq_some hf
    have hcode : lic.license_code = key := by simpa using List.find?_some hf
    by_cases hexp : now > lic.valid_until
    · rw [transcribe_expired s key f now lic hf hexp]
      refine ⟨?_, iff_of_true rfl ⟨lic, hf, hexp⟩, ?_, fun e h => rfl⟩
      · constructor
        · intro h; simp at h
        · intro hforall; exact absurd hcode (hforall lic hmem)
      · constructor
        · intro h; simp at h
        · rintro ⟨lic', hf', hexp', -⟩
          rw [hf] at hf'
          obtain rfl : lic = lic' := by simpa using hf'
          exact (hexp' hexp).elim
    · by_cases hcred : lic.remaining_usage.getD 0 < file_duration
      · rw [transcribe_insufficient s key f now lic hf hexp hcred]
        refine ⟨?_, ?_, iff_of_true rfl ⟨lic, hf, hexp, hcred⟩,
          fun e h => rfl⟩
        · constructor
          · intro h; simp at h
          · intro hforall; exact absurd hcode (hforall lic hmem)
        · constructor
          · intro h; simp at h
          · rintro ⟨lic', hf', hexp'⟩
            rw [hf] at hf'
            obtain rfl : lic = lic' := by simpa using hf'
            exact (hexp hexp').elim
      · rw [transcribe_success s key f now lic hf hexp hcred]
        refine ⟨?_, ?_, ?_, ?_⟩
        · constructor
          · intro h; simp at h
          · intro hforall; exact absurd hcode (hforall lic hmem)
        · constructor
          · intro h; simp at h
          · rintro ⟨lic', hf', hexp'⟩
            rw [hf] at hf'
            obtain rfl : lic = lic' := by simpa using hf'
            exact (hexp hexp').elim
        · constructor
          · intro h; simp at h
          · rintro ⟨lic', hf', hexp', hcred'⟩
            rw [hf] at hf'
            obtain rfl : lic = lic' := by simpa using hf'
            exact (hcred hcred').elim
        · intro e h; simp at h

/-- C6: a successful redemption against a found, unexpired license with
sufficient balance deducts exactly the fixed cost 60 from the balance,
increments `usage_count` by one and `usage_time` by 60, appends exactly one
usage-log row spanning `[now, now + 60]` with duration 60, and answers with
the artifact byte length, the deducted amount, and the post-deduction
balance. -/
theorem transcribe_success_effects (s : Store) (key : String) (f : List Nat)
    (now : Int) (lic : License)
    (hf : s.licenses.find? (fun l => l.license_code = key) = some lic)
    (hexp : ¬ now > lic.valid_until)
    (hcred : ¬ lic.remaining_usage.getD 0 < file_duration) :
    file_duration = 60 ∧
    (transcribe s key f now).2 =
      .ok { file_size := f.length, deducted_seconds := 60,
            remaining_credit := lic.remaining_usage.getD 0 - 60 } ∧
    (transcribe s key f now).1.usage_logs = s.usage_logs ++
      [{ license_id := lic.id, session_start := now,
         session_end := now + 60, duration := 60 }] ∧
    ∃ l' ∈ (transcribe s key f now).1.licenses,
      l'.id = lic.id ∧
      l'.remaining_usage = some (lic.remaining_usage.getD 0 - 60) ∧
      l'.usage_count = lic.usage_count + 1 ∧
      l'.usage_time = lic.usage_time + 60 ∧
      l'.valid_until = lic.valid_until := by
  rw [transcribe_success s key f now lic hf hexp hcred]
  refine ⟨rfl, rfl, rfl, ?_⟩
  refine ⟨_, List.mem_map_of_mem _ (List.mem_of_find?_eq_some hf), ?_⟩
  dsimp only
  rw [if_pos rfl]
  exact ⟨rfl, rfl, rfl, rfl, rfl⟩

/-- C6 witness: the theorem applied to `wStore` (balance 100, usage_time 7,
usage_count 3) at time 5. -/
theorem transcribe_success_effects_witness :
    file_duration = 60 ∧
    (transcribe wStore "KEY-1" [] 5).2 =
      .ok { file_size := 0, deducted_seconds := 60, remaining_credit := 40 } ∧
    (transcribe wStore "KEY-1" [] 5).1.usage_logs = wStore.usage_logs ++
      [{ license_id := 0, session_start := 5, session_end := 65,
         duration := 60 }] ∧
    ∃ l' ∈ (transcribe wStore "KEY-1" [] 5).1.licenses,
      l'.id = 0 ∧ l'.remaining_usage = some 40 ∧ l'.usage_count = 4 ∧
      l'.usage_time = 67 ∧ l'.valid_until = 2592000 :=
  transcribe_success_effects wStore "KEY-1" [] 5 wLicense (by decide)
    (by decide) (by decide)

/-- C7: an order for a user who already holds a license sets `valid_until`
to `max(now, old valid_until) + 30 days` and adds `floor(amount * 60)` to
the NULL-defaulted balance (for the non-negative amounts the spec admits,
Python's `int` truncation is the floor). -/
theorem order_extends_existing_license (s : Store)
    (email order_code : String) (amount : ℚ) (now : Int) (u : User)
    (lic : License)
    (hu : s.users.find? (fun x => x.email = email) = some u)
    (hl : s.licenses.find? (fun x => x.user_id = u.id) = some lic)
    (ha : 0 ≤ amount) :
    ∃ l' ∈ (process_order s email order_code amount now).licenses,
      l'.id = lic.id ∧
      l'.valid_until = max now lic.valid_until + 30 * day ∧
      l'.remaining_usage =
        some (lic.remaining_usage.getD 0 + ⌊amount * 60⌋) := by
  unfold process_order
  rw [resolve_user_found s email u hu]
  unfold apply_license_and_order
  dsimp only
  rw [license_upsert_some s u.id amount now lic hl]
  dsimp only
  rw [insert_order_ignore_licenses]
  refine ⟨_, List.mem_map_of_mem _ (List.mem_of_find?_eq_some hl), ?_⟩
  dsimp only
  rw [if_pos rfl]
  refine ⟨rfl, ?_, ?_⟩
  · have hbase : (if lic.valid_until < now then now else lic.valid_until) =
        max now lic.valid_until := by
      rcases le_or_lt now lic.valid_until with h | h
      · rw [if_neg (not_lt.mpr h), max_eq_right h]
      · rw [if_pos h, max_eq_left h.le]
    rw [hbase]
  · rw [pyInt_eq_floor _ (mul_nonneg ha (by norm_num))]

/-- C7 witness: the theorem applied to `wStore` (license valid until
2592000, balance 100) with amount 1/2 at time 100: the new expiry is
2592000 + 30 days = 5184000 and the balance gains `floor(30) = 30`. -/
theorem order_extends_existing_license_witness :
    ∃ l' ∈ (process_order wStore "w@example.com" "ORD-7" (1/2) 100).licenses,
      l'.id = 0 ∧ l'.valid_until = 5184000 ∧
      l'.remaining_usage = some 130 := by
  have h := order_extends_existing_license wStore "w@example.com" "ORD-7"
    (1/2) 100 { id := 0, email := "w@example.com" } wLicense (by decide)
    (by decide) (by norm_num)
  norm_num [wLicense, day] at h
  exact h

/-- C8: a brand-new user's first order creates a license whose validity
window is exactly 30 days, whose balance is `floor(amount * 60)`, and whose
usage counters start at zero. -/
theorem order_creates_license_new_user (s : Store)
    (email order_code : String) (amount : ℚ) (now : Int)
    (hu : s.users.find? (fun x => x.email = email) = none)
    (hl : s.licenses.find? (fun x => x.user_id = s.next_user_id) = none)
    (ha : 0 ≤ amount) :
    ∃ l' ∈ (process_order s email order_code amount now).licenses,
      l'.user_id = s.next_user_id ∧
      l'.valid_until - l'.valid_from = 30 * day ∧
      l'.remaining_usage = some ⌊amount * 60⌋ ∧
      l'.usage_time = 0 ∧ l'.usage_count = 0 := by
  unfold process_order
  rw [resolve_user_new s email hu]
  unfold apply_license_and_order
  dsimp only
  rw [license_upsert_none
      { users := s.users ++ [{ id := s.next_user_id, email := email }],
        licenses := s.licenses, usage_logs := s.usage_logs,
        orders := s.orders, next_user_id := s.next_user_id + 1,
        next_license_id := s.next_license_id }
      s.next_user_id amount now hl]
  dsimp only
  rw [insert_order_ignore_licenses]
  refine ⟨{ id := s.next_license_id, user_id := s.next_user_id,
            license_code := generate_license_code s.next_license_id,
            valid_from := now, valid_until := now + 30 * day,
            usage_time := 0, usage_count := 0,
            remaining_usage := some (pyInt (amount * 60)) },
          by simp, rfl, by dsimp only; omega, ?_, rfl, rfl⟩
  rw [pyInt_eq_floor _ (mul_nonneg ha (by norm_num))]

/-- C8 witness: the theorem applied to the empty store with amount 2 at time
1000. -/
theorem order_creates_license_new_user_witness :
    ∃ l' ∈ (process_order emptyStore "new@example.com" "ORD-8" 2 1000).licenses,
      l'.user_id = 0 ∧ l'.valid_until - l'.valid_from = 2592000 ∧
      l'.remaining_usage = some 120 ∧ l'.usage_time = 0 ∧
      l'.usage_count = 0 := by
  have h := order_creates_license_new_user emptyStore "new@example.com"
    "ORD-8" 2 1000 (by decide) (by decide) (by norm_num)
  norm_num [emptyStore, day] at h
  exact h

/-- C9: `valid_until` never decreases.  Under the store's PRIMARY KEY
constraint (distinct license rows have distinct ids), every license surviving
an order application keeps an id-matching successor with a `valid_until` at
least as large; the license actually extended by the order grows strictly
(by at least the 30-day extension); and redemption never changes any
`valid_until`. -/
theorem valid_until_monotone (s : Store) (email order_code key : String)
    (amount : ℚ) (now : Int) (f : List Nat)
    (hinj : ∀ l1 ∈ s.licenses, ∀ l2 ∈ s.licenses, l1.id = l2.id → l1 = l2) :
    (∀ l ∈ s.licenses,
      ∃ l' ∈ (process_order s email order_code amount now).licenses,
        l'.id = l.id ∧ l.valid_until ≤ l'.valid_until) ∧
    (∀ u lic, s.users.find? (fun x => x.email = email) = some u →
      s.licenses.find? (fun x => x.user_id = u.id) = some lic →
      ∃ l' ∈ (process_order s email order_code amount now).licenses,
        l'.id = lic.id ∧ lic.valid_until < l'.valid_until) ∧
    (∀ l ∈ s.licenses,
      ∃ l' ∈ (transcribe s key f now).1.licenses,
        l'.id = l.id ∧ l'.valid_until = l.valid_until) := by
  refine ⟨?_, ?_, ?_⟩
  · intro l hl
    unfold process_order apply_license_and_order
    dsimp only
    rw [insert_order_ignore_licenses]
    rcases hf : (resolve_user s email).1.licenses.find?
        (fun x => x.user_id = (resolve_user s email).2) with _ | lic
    · rw [license_upsert_none _ _ _ _ hf]
      dsimp only
      refine ⟨l, ?_, rfl, le_refl _⟩
      rw [resolve_user_licenses]
      exact List.mem_append_left _ hl
    · rw [license_upsert_some _ _ _ _ lic hf]
      dsimp only
      have hlic_mem : lic ∈ s.licenses := by
        have := List.mem_of_find?_eq_some hf
        rwa [resolve_user_licenses] at this
      by_cases hid : l.id = lic.id
      · obtain rfl : l = lic := hinj l hl lic hlic_mem hid
        refine ⟨{ l with
            valid_until :=
              (if l.valid_until < now then now else l.valid_until) + 30 * day,
            remaining_usage :=
              some (l.remaining_usage.getD 0 + pyInt (amount * 60)) },
          ?_, rfl, ?_⟩
        · rw [resolve_user_licenses]
          exact List.mem_map.mpr ⟨l, hl, by rw [if_pos rfl]⟩
        · dsimp only
          simp only [day]
          split <;> omega
      · refine ⟨l, ?_, rfl, le_refl _⟩
        rw [resolve_user_licenses]
        exact List.mem_map.mpr ⟨l, hl, by rw [if_neg hid]⟩
  · intro u lic hu hl2
    unfold process_order
    rw [resolve_user_found s email u hu]
    unfold apply_license_and_order
    dsimp only
    rw [license_upsert_some s u.id amount now lic hl2]
    dsimp only
    rw [insert_order_ignore_licenses]
    refine ⟨_, List.mem_map_of_mem _ (List.mem_of_find?_eq_some hl2), ?_⟩
    dsimp only
    rw [if_pos rfl]
    refine ⟨rfl, ?_⟩
    dsimp only
    simp only [day]
    split <;> omega
  · intro l hl
    rcases hfind : s.licenses.find? (fun x => x.license_code = key)
        with _ | lic
    · rw [transcribe_invalid s key f now hfind]
      exact ⟨l, hl, rfl, rfl⟩
    · by_cases hexp : now > lic.valid_until
      · rw [transcribe_expired s key f now lic hfind hexp]
        exact ⟨l, hl, rfl, rfl⟩
      · by_cases hcred : lic.remaining_usage.getD 0 < file_duration
        · rw [transcribe_insufficient s key f now lic hfind hexp hcred]
          exact ⟨l, hl, rfl, rfl⟩
        · rw [transcribe_success s key f now lic hfind hexp hcred]
          dsimp only
          refine ⟨_, List.mem_map_of_mem _ hl, ?_⟩
          by_cases hid : l.id = lic.id
          · rw [if_pos hid]
            exact ⟨rfl, rfl⟩
          · rw [if_neg hid]
            exact ⟨rfl, rfl⟩

/-- C9 witness: the theorem applied to `wStore` (a single license with id 0,
so id-injectivity holds by evaluation). -/
theorem valid_until_monotone_witness :
    (∀ l ∈ wStore.licenses,
      ∃ l' ∈ (process_order wStore "w@example.com" "ORD-9" 1 50).licenses,
        l'.id = l.id ∧ l.valid_until ≤ l'.valid_until) ∧
    (∀ u lic, wStore.users.find? (fun x => x.email = "w@example.com") = some u →
      wStore.licenses.find? (fun x => x.user_id = u.id) = some lic →
      ∃ l' ∈ (process_order wStore "w@example.com" "ORD-9" 1 50).licenses,
        l'.id = lic.id ∧ lic.valid_until < l'.valid_until) ∧
    (∀ l ∈ wStore.licenses,
      ∃ l' ∈ (transcribe wStore "KEY-1" [] 50).1.licenses,
        l'.id = l.id ∧ l'.valid_until = l.valid_until) :=
  valid_until_monotone wStore "w@example.com" "ORD-9" "KEY-1" 1 50 []
    (by decide)

/-- C10: a license whose `remaining_usage` column is NULL is treated as
holding balance 0 by both operations: an order adds `floor(amount * 60)` to
0, and a redemption against it is rejected with `InsufficientCredit` (the
cost, 60, is positive), leaving the store unchanged. -/
theorem null_remaining_as_zero (s : Store) (email order_code key : String)
    (amount : ℚ) (now : Int) (u : User) (lic lic2 : License) (f : List Nat)
    (hu : s.users.find? (fun x => x.email = email) = some u)
    (hl : s.licenses.find? (fun x => x.user_id = u.id) = some lic)
    (hnull : lic.remaining_usage = none)
    (ha : 0 ≤ amount)
    (hk : s.licenses.find? (fun x => x.license_code = key) = some lic2)
    (hexp : ¬ now > lic2.valid_until)
    (hnull2 : lic2.remaining_usage = none) :
    (∃ l' ∈ (process_order s email order_code amount now).licenses,
        l'.id = lic.id ∧ l'.remaining_usage = some (0 + ⌊amount * 60⌋)) ∧
    transcribe s key f now = (s, .err .InsufficientCredit) := by
  constructor
  · unfold process_order
    rw [resolve_user_found s email u hu]
    unfold apply_license_and_order
    dsimp only
    rw [license_upsert_some s u.id amount now lic hl]
    dsimp only
    rw [insert_order_ignore_licenses]
    refine ⟨_, List.mem_map_of_mem _ (List.mem_of_find?_eq_some hl), ?_⟩
    dsimp only
    rw [if_pos rfl]
    refine ⟨rfl, ?_⟩
    rw [hnull, pyInt_eq_floor _ (mul_nonneg ha (by norm_num))]
    rfl
  · refine transcribe_insufficient s key f now lic2 hk hexp ?_
    rw [hnull2]
    norm_num [file_duration]

/-- C10 witness: the theorem applied to `nullStore`, whose single license has
a NULL balance: the order of amount 1 yields balance `0 + 60`, and the
redemption is rejected. -/
theorem null_remaining_as_zero_witness :
    (∃ l' ∈ (process_order nullStore "n@example.com" "ORD-10" 1 5).licenses,
        l'.id = 0 ∧ l'.remaining_usage = some 60) ∧
    transcribe nullStore "KEY-N" [] 5 = (nullStore, .err .InsufficientCredit) := by
  have h := null_remaining_as_zero nullStore "n@example.com" "ORD-10" "KEY-N"
    1 5 { id := 0, email := "n@example.com" } nullLicense nullLicense []
    (by decide) (by decide) (by decide) (by norm_num) (by decide) (by decide)
    (by decide)
  norm_num [nullLicense] at h
  exact h

/-- C2 witness: the amended two-unit description applied to the empty store
and a fresh email. -/
theorem order_two_commit_units_witness :
    (resolve_user emptyStore "b@example.com").1.licenses =
      emptyStore.licenses ∧
    (resolve_user emptyStore "b@example.com").1.orders = emptyStore.orders ∧
    (resolve_user emptyStore "b@example.com").1.usage_logs =
      emptyStore.usage_logs ∧
    (process_order emptyStore "b@example.com" "ORD-2" 1 0).users =
      (resolve_user emptyStore "b@example.com").1.users :=
  order_two_commit_units emptyStore "b@example.com" "ORD-2" 1 0

/-- C5 witness: the error characterization applied to `wStore` with an
unknown key at time 0. -/
theorem transcribe_error_characterization_witness :
    ((transcribe wStore "NO-SUCH-KEY" [] 0).2 = .err .InvalidLicense ↔
      ∀ l ∈ wStore.licenses, l.license_code ≠ "NO-SUCH-KEY") ∧
    ((transcribe wStore "NO-SUCH-KEY" [] 0).2 = .err .LicenseExpired ↔
      ∃ lic, wStore.licenses.find?
          (fun l => l.license_code = "NO-SUCH-KEY") = some lic ∧
        (0 : Int) > lic.valid_until) ∧
    ((transcribe wStore "NO-SUCH-KEY" [] 0).2 = .err .InsufficientCredit ↔
      ∃ lic, wStore.licenses.find?
          (fun l => l.license_code = "NO-SUCH-KEY") = some lic ∧
        ¬ (0 : Int) > lic.valid_until ∧
        lic.remaining_usage.getD 0 < file_duration) ∧
    (∀ e, (transcribe wStore "NO-SUCH-KEY" [] 0).2 = .err e →
      (transcribe wStore "NO-SUCH-KEY" [] 0).1 = wStore) :=
  transcribe_error_characterization wStore "NO-SUCH-KEY" [] 0
